import Mathlib

/-!
Verification of the Faster-Whisper orchestration shell (`src/main.py`).

The repository is a thin HTTP shell around an external speech-to-text
engine.  We embed the two pieces of orchestration logic shallowly:

* the Model Manager (`load_model`, `src/main.py` lines 42-70), with the
  external `WhisperModel` constructor modelled as an oracle
  (`EngineBehavior.construct`) that either succeeds or raises an error
  string (Python stringifies the caught exception), and

* the Transcription Handler (`transcribe_audio`, lines 92-159), modelled
  as a deterministic function of an environment oracle (copy result,
  engine transcription result, lazy-generator drain result, unlink
  result) that produces an event trace, an outcome, and the final model
  state.

Python floats (timestamps, probabilities, elapsed time) are modelled as
exact rationals; nothing proved here depends on float arithmetic.
Python dictionaries returned to the client are modelled as structures;
an optional dictionary key is an `Option` field (`none` = key absent).
-/

namespace FasterWhisper

/-- Process-wide model state: `model_info = {"size": .., "device": .., "loaded": ..}`. -/
structure ModelInfo where
  size : String
  device : String
  loaded : Bool
deriving DecidableEq, Repr

/-- The external engine's constructor, `WhisperModel(model_size, device=..,
compute_type=..)`: an oracle that, for given size / device / compute type,
either returns a handle (modelled as `Unit`) or raises, where the error
string is Python's `str(e)` for the raised exception. -/
structure EngineBehavior where
  construct : String → String → String → Except String Unit

/-- Result dictionary of `load_model`: either
`{"success": True, "message": ..}` or `{"success": False, "error": ..}`. -/
inductive LoadResult
  | success (message : String)
  | failure (error : String)
deriving DecidableEq, Repr

/-- The `"success"` field of a `load_model` result dictionary. -/
def LoadResult.isSuccess : LoadResult → Bool
  | .success _ => true
  | .failure _ => false

/-- `load_model` (`src/main.py` lines 42-70).  Returns the result
dictionary together with the new global `model_info`.  The Python
defaults are `model_size="large-v3"`, `device="cuda"`; callers that use
the defaults pass those strings explicitly here.

Control flow of the source: the whole body is one `try`; on `device ==
"cuda"` a GPU construction (`compute_type="float16"`) is attempted,
otherwise a CPU construction (`compute_type="int8"`).  The `except`
block falls back to `WhisperModel("small", device="cpu",
compute_type="int8")` only when `device == "cuda"`; a second failure
(or a direct CPU failure) resets `model_info` to not-loaded and returns
a failure dictionary built from the last error. -/
def load_model (eng : EngineBehavior) (model_size : String) (device : String) :
    LoadResult × ModelInfo :=
  if device = "cuda" then
    match eng.construct model_size "cuda" "float16" with
    | .ok _ =>
        (.success ("Successfully loaded GPU model: " ++ model_size),
         ⟨model_size, "cuda", true⟩)
    | .error _e =>
        match eng.construct "small" "cpu" "int8" with
        | .ok _ =>
            (.success "GPU load failed, fallback to CPU model (small)",
             ⟨"small", "cpu", true⟩)
        | .error e2 =>
            (.failure ("Model load failed: " ++ e2), ⟨"", "", false⟩)
  else
    match eng.construct model_size "cpu" "int8" with
    | .ok _ =>
        (.success ("Successfully loaded CPU model: " ++ model_size),
         ⟨model_size, "cpu", true⟩)
    | .error e =>
        (.failure ("CPU model load failed: " ++ e), ⟨"", "", false⟩)

end FasterWhisper

namespace FasterWhisper

/-- C2: requesting the accelerated device with the accelerated construction
failing and the CPU fallback succeeding yields
`model_info = {"size": "small", "device": "cpu", "loaded": True}` and a
success result whose message indicates the degraded fallback. -/
theorem load_model_cuda_fallback_success (eng : EngineBehavior)
    (model_size : String) (e : String)
    (hgpu : eng.construct model_size "cuda" "float16" = .error e)
    (hcpu : eng.construct "small" "cpu" "int8" = .ok ()) :
    load_model eng model_size "cuda" =
      (.success "GPU load failed, fallback to CPU model (small)",
       ⟨"small", "cpu", true⟩) := by
  simp [load_model, hgpu, hcpu]

/-- Witness for `load_model_cuda_fallback_success` at a concrete engine. -/
theorem load_model_cuda_fallback_success_witness :
    load_model
      ⟨fun _ dev _ => if dev = "cuda" then .error "no gpu" else .ok ()⟩
      "large-v3" "cuda" =
      (.success "GPU load failed, fallback to CPU model (small)",
       ⟨"small", "cpu", true⟩) :=
  load_model_cuda_fallback_success
    ⟨fun _ dev _ => if dev = "cuda" then .error "no gpu" else .ok ()⟩
    "large-v3" "no gpu" (by rfl) (by rfl)

/-- C3: when both the accelerated attempt and the CPU fallback fail, the
final state is not-loaded and the failure's error text is built from the
second (fallback) error, not the first. -/
theorem load_model_cuda_double_failure (eng : EngineBehavior)
    (model_size : String) (e1 e2 : String)
    (hgpu : eng.construct model_size "cuda" "float16" = .error e1)
    (hcpu : eng.construct "small" "cpu" "int8" = .error e2) :
    load_model eng model_size "cuda" =
      (.failure ("Model load failed: " ++ e2), ⟨"", "", false⟩) := by
  simp [load_model, hgpu, hcpu]

/-- Witness for `load_model_cuda_double_failure` at a concrete engine. -/
theorem load_model_cuda_double_failure_witness :
    load_model ⟨fun _ dev _ => .error ("cannot init " ++ dev)⟩
      "large-v3" "cuda" =
      (.failure "Model load failed: cannot init cpu", ⟨"", "", false⟩) :=
  load_model_cuda_double_failure ⟨fun _ dev _ => .error ("cannot init " ++ dev)⟩
    "large-v3" "cannot init cuda" "cannot init cpu" (by rfl) (by rfl)

/-- C10: `load_model` is total over every argument pair and every engine
behavior — every path returns a structured result dictionary (success or
failure, never a propagated exception), and afterwards
`model_info["loaded"]` equals the result's `"success"` field. -/
theorem load_model_total_loaded_iff_success (eng : EngineBehavior)
    (model_size : String) (device : String) :
    ((∃ m, (load_model eng model_size device).1 = .success m) ∨
      (∃ er, (load_model eng model_size device).1 = .failure er)) ∧
    (load_model eng model_size device).2.loaded =
      (load_model eng model_size device).1.isSuccess := by
  unfold load_model
  by_cases hdev : device = "cuda"
  · rw [if_pos hdev]
    cases eng.construct model_size "cuda" "float16" with
    | ok _ => exact ⟨Or.inl ⟨_, rfl⟩, rfl⟩
    | error _ =>
      cases eng.construct "small" "cpu" "int8" with
      | ok _ => exact ⟨Or.inl ⟨_, rfl⟩, rfl⟩
      | error _ => exact ⟨Or.inr ⟨_, rfl⟩, rfl⟩
  · rw [if_neg hdev]
    cases eng.construct model_size "cpu" "int8" with
    | ok _ => exact ⟨Or.inl ⟨_, rfl⟩, rfl⟩
    | error _ => exact ⟨Or.inr ⟨_, rfl⟩, rfl⟩

end FasterWhisper

namespace FasterWhisper

/-- One word with timestamps, as yielded by the engine and as emitted in
the response (`{"word": .., "start": .., "end": ..}`). -/
structure Word where
  word : String
  start : Rat
  «end» : Rat
deriving DecidableEq, Repr

/-- One segment yielded by the engine's lazy generator.  `words = none`
models both a missing `words` attribute and `words = None`; `some []`
models an engine-supplied empty list.  The Python truthiness test
`hasattr(segment, 'words') and segment.words` is false exactly on `none`
and `some []`. -/
structure EngineSegment where
  start : Rat
  «end» : Rat
  text : String
  words : Option (List Word)
deriving DecidableEq, Repr

/-- The language-detection metadata returned by the engine next to the
generator. -/
structure TransInfo where
  language : String
  language_probability : Rat
deriving DecidableEq, Repr

/-- What one call to `model.transcribe` produces: the metadata, plus the
outcome of later draining the lazy generator with `list(...)` (the
generator may stream-read the staged file, so draining can itself
raise). -/
structure TranscribeYield where
  info : TransInfo
  drain : Except String (List EngineSegment)

/-- One entry of the response's `segments` list.  `words = none` means the
`"words"` key is absent from the dictionary. -/
structure SegmentDict where
  start : Rat
  «end» : Rat
  text : String
  words : Option (List Word)
deriving DecidableEq, Repr

/-- The JSON body returned on success by `transcribe_audio`. -/
structure TranscribeResponse where
  success : Bool
  language : String
  language_probability : Rat
  duration : Rat
  model : String
  device : String
  text : String
  segments : List SegmentDict
deriving DecidableEq, Repr

/-- The form fields of one `/transcribe` request. -/
structure Request where
  filename : String
  language : String
  beam_size : Int
  vad_filter : Bool
  word_timestamps : Bool
deriving DecidableEq, Repr

/-- Environment oracle for one `transcribe_audio` call: the engine used by
a possible implicit `load_model()`, the name handed out by
`tempfile.NamedTemporaryFile`, whether `shutil.copyfileobj` raises,
what `model.transcribe` returns (as a function of the parameters it is
passed), the measured wall-clock time, and whether `os.unlink` raises. -/
structure TranscribeEnv where
  engine : EngineBehavior
  tempName : String
  copyResult : Except String Unit
  transcribeCall : Option String → Int → Bool → Bool → Except String TranscribeYield
  elapsed : Rat
  unlinkResult : Except String Unit

/-- Observable events of one handler run, in order. -/
inductive Event
  | loadAttempt (model_size : String) (device : String)
  | createTemp (name : String)
  | copy
  | transcribeStart (language : Option String) (beam_size : Int)
      (vad_filter : Bool) (word_timestamps : Bool)
  | materialize (segmentCount : Nat)
  | removeTemp (name : String)
deriving DecidableEq, Repr

/-- How one handler run ends: a 2xx JSON response, a raised
`HTTPException(status, detail)`, or an exception escaping the
handler (only possible from the unguarded `finally` block). -/
inductive Outcome
  | ok (resp : TranscribeResponse)
  | httpError (status : Nat) (detail : String)
  | raised (message : String)
deriving DecidableEq, Repr

/-- Trace, outcome and final global `model_info` of one handler run. -/
structure HandlerRun where
  events : List Event
  outcome : Outcome
  finalInfo : ModelInfo
deriving DecidableEq, Repr

/-- Python `str.strip()` whitespace test, restricted to ASCII whitespace
(space, tab, line feed, carriage return, vertical tab, form feed);
Unicode space classes are not modelled. -/
def pyWS (c : Char) : Bool :=
  c = ' ' || c = '\t' || c = '\n' || c = '\r' || c = '\x0b' || c = '\x0c'

/-- Drop leading whitespace from a character list. -/
def stripLeftList (l : List Char) : List Char := l.dropWhile pyWS

/-- Drop trailing whitespace from a character list. -/
def stripRightList (l : List Char) : List Char := (l.reverse.dropWhile pyWS).reverse

/-- Python `str.strip()` on a string. -/
def pyStrip (s : String) : String := ⟨stripRightList (stripLeftList s.data)⟩

/-- Python `round(x, 2)` modelled on exact rationals (ties round half-up
here; CPython's ties-to-even on binary floats is not modelled — no claim
depends on this field's value). -/
def round2 (x : Rat) : Rat := (round (x * 100) : ℤ) / 100

/-- Line 114: `lang_param = None if language == "auto" else language`. -/
def lang_param (language : String) : Option String :=
  if language = "auto" then none else some language

/-- Lines 131-140: build one `segment_dict`.  The `"words"` key is added
only when `hasattr(segment, 'words') and segment.words` is truthy, i.e.
when the engine's words list is present and non-empty; the
`word_timestamps` flag is not consulted here. -/
def buildSegmentDict (segment : EngineSegment) : SegmentDict :=
  { start := segment.start, «end» := segment.«end», text := segment.text,
    words :=
      match segment.words with
      | some (w :: ws) =>
          some ((w :: ws).map fun word => ⟨word.word, word.start, word.«end»⟩)
      | _ => none }

/-- The per-segment loop of lines 130-142: one left fold that extends
`segments_data` and appends `segment.text + " "` to `full_text`. -/
def assemble (segments_list : List EngineSegment) : List SegmentDict × String :=
  segments_list.foldl
    (fun acc segment =>
      (acc.1 ++ [buildSegmentDict segment], acc.2 ++ segment.text ++ " "))
    ([], "")

/-- The `try` block of `transcribe_audio` (lines 111-152), entered with the
temp file already created: copy the upload into it, compute `lang_param`,
call the engine, materialize the lazy generator with `list(...)`, and build
the response dictionary.  Returns the events of the block together with
either the response or the raised exception's text. -/
def runBody (env : TranscribeEnv) (req : Request) (info : ModelInfo) :
    List Event × Except String TranscribeResponse :=
  match env.copyResult with
  | .error e => ([.copy], .error e)
  | .ok _ =>
    match env.transcribeCall (lang_param req.language) req.beam_size
        req.vad_filter req.word_timestamps with
    | .error e =>
        ([.copy, .transcribeStart (lang_param req.language) req.beam_size
            req.vad_filter req.word_timestamps], .error e)
    | .ok y =>
      match y.drain with
      | .error e =>
          ([.copy, .transcribeStart (lang_param req.language) req.beam_size
              req.vad_filter req.word_timestamps], .error e)
      | .ok segments_list =>
        let sd := assemble segments_list
        ([.copy, .transcribeStart (lang_param req.language) req.beam_size
            req.vad_filter req.word_timestamps,
          .materialize segments_list.length],
         .ok { success := true,
               language := y.info.language,
               language_probability := round2 y.info.language_probability,
               duration := round2 env.elapsed,
               model := info.size,
               device := info.device,
               text := pyStrip sd.2,
               segments := sd.1 })

/-- The staging step plus the `try/except/finally` of lines 110-159,
entered once the model is known to be loaded; `pre` holds the events of
the model-ensuring step.  The temp-file creation itself (line 110, outside
the `try`) is modelled as succeeding, with name `env.tempName`.  The
`except` turns any exception of the body into `HTTPException(500, str(e))`.
In the `finally`, `os.path.exists(temp_file.name)` is true — the file was
created and no earlier step removes it — so `os.unlink` is always
attempted; an exception raised inside a Python `finally` replaces the
in-flight outcome, modelled by the `.raised` case (and then no removal
happened). -/
def afterModel (env : TranscribeEnv) (req : Request) (info : ModelInfo)
    (pre : List Event) : HandlerRun :=
  let body := runBody env req info
  let beforeFinally : Outcome :=
    match body.2 with
    | .ok resp => .ok resp
    | .error e => .httpError 500 e
  match env.unlinkResult with
  | .ok _ =>
      ⟨pre ++ [.createTemp env.tempName] ++ body.1 ++ [.removeTemp env.tempName],
       beforeFinally, info⟩
  | .error u =>
      ⟨pre ++ [.createTemp env.tempName] ++ body.1, .raised u, info⟩

/-- `transcribe_audio` (lines 92-159) as a function of the environment
oracle, the request's form fields, and the global `model_info` at entry.
If the model is not loaded, it first calls `load_model()` with the Python
default arguments (`"large-v3"`, `"cuda"`); a failed default load raises
`HTTPException(500, "Model loading failed")` before any staging. -/
def transcribe_audio (env : TranscribeEnv) (req : Request)
    (info0 : ModelInfo) : HandlerRun :=
  if info0.loaded then afterModel env req info0 []
  else
    let loaded := load_model env.engine "large-v3" "cuda"
    if loaded.1.isSuccess then
      afterModel env req loaded.2 [.loadAttempt "large-v3" "cuda"]
    else
      ⟨[.loadAttempt "large-v3" "cuda"], .httpError 500 "Model loading failed",
       loaded.2⟩

end FasterWhisper

namespace FasterWhisper

/-- The character-list shape of the handler's accumulated `full_text`:
each text followed by one space (`full_text += segment.text + " "`). -/
def concatSp : List (List Char) → List Char
  | [] => []
  | t :: ts => t ++ ' ' :: concatSp ts

/-- The character-list shape of the spec's join: texts separated by
single spaces, with no trailing separator. -/
def joinSp : List (List Char) → List Char
  | [] => []
  | [t] => t
  | t :: ts => t ++ ' ' :: joinSp ts

/-- Spec step 7, first half: "Concatenate segment texts with a single
separating space". -/
def specJoin : List String → String
  | [] => ""
  | [t] => t
  | t :: ts => t ++ " " ++ specJoin ts

/-- Spec step 7: join the segment texts with single spaces, "then trim
leading/trailing whitespace from the final concatenation, to form
`fullText`". -/
def specFullText (texts : List String) : String := pyStrip (specJoin texts)

theorem pyWS_space : pyWS ' ' = true := rfl

theorem dropWhile_pyWS_cons_space (l : List Char) :
    List.dropWhile pyWS (' ' :: l) = List.dropWhile pyWS l := by
  rw [List.dropWhile_cons_of_pos pyWS_space]

theorem stripRightList_append_space (l : List Char) :
    stripRightList (l ++ [' ']) = stripRightList l := by
  unfold stripRightList
  rw [List.reverse_append, List.reverse_singleton, List.singleton_append,
    dropWhile_pyWS_cons_space]

theorem strip_append_space (l : List Char) :
    stripRightList (stripLeftList (l ++ [' '])) =
      stripRightList (stripLeftList l) := by
  unfold stripLeftList
  rw [List.dropWhile_append]
  by_cases h : (List.dropWhile pyWS l).isEmpty
  · rw [if_pos h]
    rw [List.isEmpty_iff] at h
    rw [h]
    rfl
  · rw [if_neg h]
    exact stripRightList_append_space _

theorem concatSp_eq_joinSp_append_space :
    ∀ ts : List (List Char), ts ≠ [] → concatSp ts = joinSp ts ++ [' ']
  | [], h => absurd rfl h
  | [t], _ => by simp [concatSp, joinSp]
  | t :: t' :: ts, _ => by
      have ih := concatSp_eq_joinSp_append_space (t' :: ts) (by simp)
      simp only [concatSp, joinSp] at ih ⊢
      rw [ih]
      simp

theorem strip_concatSp_eq_strip_joinSp (ts : List (List Char)) :
    stripRightList (stripLeftList (concatSp ts)) =
      stripRightList (stripLeftList (joinSp ts)) := by
  rcases ts with _ | ⟨t, ts⟩
  · rfl
  · rw [concatSp_eq_joinSp_append_space (t :: ts) (by simp),
      strip_append_space]

theorem specJoin_data :
    ∀ ts : List String, (specJoin ts).data = joinSp (ts.map String.data)
  | [] => rfl
  | [t] => by simp [specJoin, joinSp]
  | t :: t' :: ts => by
      have ih := specJoin_data (t' :: ts)
      simp only [specJoin, List.map, joinSp, String.data_append] at ih ⊢
      rw [ih]
      simp

theorem assemble_go_snd (segments_list : List EngineSegment)
    (p : List SegmentDict × String) :
    ((segments_list.foldl
        (fun acc segment =>
          (acc.1 ++ [buildSegmentDict segment],
           acc.2 ++ segment.text ++ " "))
        p).2).data =
      p.2.data ++ concatSp (segments_list.map fun s => s.text.data) := by
  induction segments_list generalizing p with
  | nil => simp [concatSp]
  | cons s rest ih =>
      rw [List.foldl_cons, ih]
      simp [concatSp, List.append_assoc]

theorem assemble_snd_data (segments_list : List EngineSegment) :
    (assemble segments_list).2.data =
      concatSp (segments_list.map fun s => s.text.data) := by
  unfold assemble
  rw [assemble_go_snd]
  rfl

theorem assemble_go_fst (segments_list : List EngineSegment)
    (p : List SegmentDict × String) :
    (segments_list.foldl
        (fun acc segment =>
          (acc.1 ++ [buildSegmentDict segment],
           acc.2 ++ segment.text ++ " "))
        p).1 =
      p.1 ++ segments_list.map buildSegmentDict := by
  induction segments_list generalizing p with
  | nil => simp
  | cons s rest ih =>
      rw [List.foldl_cons, ih]
      simp

theorem assemble_fst (segments_list : List EngineSegment) :
    (assemble segments_list).1 = segments_list.map buildSegmentDict := by
  unfold assemble
  rw [assemble_go_fst]
  rfl

/-- The handler's `full_text.strip()` coincides with the specification's
join-then-trim, for every list of engine segments. -/
theorem fullText_eq_specFullText (segments_list : List EngineSegment) :
    pyStrip (assemble segments_list).2 =
      specFullText (segments_list.map fun s => s.text) := by
  unfold specFullText pyStrip
  apply congrArg String.mk
  rw [assemble_snd_data, specJoin_data, List.map_map]
  exact strip_concatSp_eq_strip_joinSp _

end FasterWhisper

namespace FasterWhisper

/-- `afterModel` unfolded by the unlink oracle. -/
theorem afterModel_eq (env : TranscribeEnv) (req : Request) (info : ModelInfo)
    (pre : List Event) :
    afterModel env req info pre =
      match env.unlinkResult with
      | .ok _ =>
          ⟨pre ++ [.createTemp env.tempName] ++ (runBody env req info).1 ++
             [.removeTemp env.tempName],
           match (runBody env req info).2 with
           | .ok resp => .ok resp
           | .error e => .httpError 500 e,
           info⟩
      | .error u =>
          ⟨pre ++ [.createTemp env.tempName] ++ (runBody env req info).1,
           .raised u, info⟩ := rfl

/-- `runBody` on the all-goes-well path. -/
theorem runBody_eq_of_ok (env : TranscribeEnv) (req : Request)
    (info : ModelInfo) (y : TranscribeYield) (segs : List EngineSegment)
    (hcopy : env.copyResult = .ok ())
    (hcall : env.transcribeCall (lang_param req.language) req.beam_size
        req.vad_filter req.word_timestamps = .ok y)
    (hdrain : y.drain = .ok segs) :
    runBody env req info =
      ([.copy, .transcribeStart (lang_param req.language) req.beam_size
          req.vad_filter req.word_timestamps, .materialize segs.length],
       .ok { success := true,
             language := y.info.language,
             language_probability := round2 y.info.language_probability,
             duration := round2 env.elapsed,
             model := info.size,
             device := info.device,
             text := pyStrip (assemble segs).2,
             segments := (assemble segs).1 }) := by
  simp only [runBody, hcopy, hcall, hdrain]

/-- If `afterModel` ends 2xx then the body produced that response and the
unlink succeeded. -/
theorem afterModel_ok_inv (env : TranscribeEnv) (req : Request)
    (info : ModelInfo) (pre : List Event) (resp : TranscribeResponse)
    (h : (afterModel env req info pre).outcome = .ok resp) :
    (runBody env req info).2 = .ok resp ∧ env.unlinkResult = .ok () := by
  rw [afterModel_eq] at h
  cases hu : env.unlinkResult with
  | ok u =>
      cases u
      rw [hu] at h
      simp only at h
      cases hb : (runBody env req info).2 with
      | ok r =>
          rw [hb] at h
          simp only [Outcome.ok.injEq] at h
          subst h
          exact ⟨rfl, rfl⟩
      | error e => rw [hb] at h; simp at h
  | error u => rw [hu] at h; simp at h

/-- If the whole handler ends 2xx then the body produced that response
with some loaded model state, and the unlink succeeded. -/
theorem transcribe_ok_inv (env : TranscribeEnv) (req : Request)
    (info0 : ModelInfo) (resp : TranscribeResponse)
    (h : (transcribe_audio env req info0).outcome = .ok resp) :
    ∃ info : ModelInfo,
      (runBody env req info).2 = .ok resp ∧ env.unlinkResult = .ok () := by
  unfold transcribe_audio at h
  cases h0 : info0.loaded with
  | true =>
      rw [h0] at h
      simp only [if_true] at h
      exact ⟨info0, afterModel_ok_inv _ _ _ _ _ h⟩
  | false =>
      rw [h0] at h
      simp only [Bool.false_eq_true, if_false] at h
      cases hs : (load_model env.engine "large-v3" "cuda").1.isSuccess with
      | true =>
          rw [hs] at h
          simp only [if_true] at h
          exact ⟨(load_model env.engine "large-v3" "cuda").2,
            afterModel_ok_inv _ _ _ _ _ h⟩
      | false =>
          rw [hs] at h
          simp at h

/-- A 2xx body forces the copy to have succeeded. -/
theorem runBody_ok_copy (env : TranscribeEnv) (req : Request)
    (info : ModelInfo) (resp : TranscribeResponse)
    (h : (runBody env req info).2 = .ok resp) : env.copyResult = .ok () := by
  unfold runBody at h
  cases hc : env.copyResult with
  | ok u => cases u; rfl
  | error e => rw [hc] at h; simp at h

end FasterWhisper

namespace FasterWhisper

/-- C5: the response's `text` equals the spec's `fullText` — segment texts
joined by single spaces, then trimmed — for every sequence of engine
segments, and is `""` for the empty sequence. -/
theorem transcribe_fullText_is_spec_join (env : TranscribeEnv) (req : Request)
    (info0 : ModelInfo) (y : TranscribeYield) (segs : List EngineSegment)
    (resp : TranscribeResponse)
    (hcall : env.transcribeCall (lang_param req.language) req.beam_size
        req.vad_filter req.word_timestamps = .ok y)
    (hdrain : y.drain = .ok segs)
    (hout : (transcribe_audio env req info0).outcome = .ok resp) :
    resp.text = specFullText (segs.map fun s => s.text) ∧
      (segs = [] → resp.text = "") := by
  obtain ⟨info, hbody, -⟩ := transcribe_ok_inv env req info0 resp hout
  have hcopy := runBody_ok_copy env req info resp hbody
  rw [runBody_eq_of_ok env req info y segs hcopy hcall hdrain] at hbody
  simp only [Except.ok.injEq] at hbody
  constructor
  · rw [← hbody]
    exact fullText_eq_specFullText segs
  · intro hnil
    rw [← hbody, hnil]
    rfl

/-- C6: a request arriving with the model not loaded, whose default
(`"large-v3"`, `"cuda"`) load fails, ends as
`HTTPException(500, "Model loading failed")`; its trace holds just the
load attempt with default arguments — no temp file is created and no
audio is read. -/
theorem transcribe_model_unavailable (env : TranscribeEnv) (req : Request)
    (info0 : ModelInfo)
    (hnl : info0.loaded = false)
    (hfail : (load_model env.engine "large-v3" "cuda").1.isSuccess = false) :
    (transcribe_audio env req info0).events =
        [.loadAttempt "large-v3" "cuda"] ∧
    (transcribe_audio env req info0).outcome =
        .httpError 500 "Model loading failed" ∧
    (∀ n, Event.createTemp n ∉ (transcribe_audio env req info0).events) ∧
    Event.copy ∉ (transcribe_audio env req info0).events := by
  have hrun : transcribe_audio env req info0 =
      ⟨[.loadAttempt "large-v3" "cuda"], .httpError 500 "Model loading failed",
       (load_model env.engine "large-v3" "cuda").2⟩ := by
    unfold transcribe_audio
    rw [hnl]
    simp only [Bool.false_eq_true, if_false, hfail]
  rw [hrun]
  refine ⟨rfl, rfl, ?_, ?_⟩ <;> intros <;> simp

/-- Membership in the events of `runBody` pins the parameters of a
`transcribeStart` event to the request's. -/
theorem runBody_transcribeStart (env : TranscribeEnv) (req : Request)
    (info : ModelInfo) (lp : Option String) (bs : Int) (vf wt : Bool)
    (h : Event.transcribeStart lp bs vf wt ∈ (runBody env req info).1) :
    lp = lang_param req.language ∧ bs = req.beam_size ∧
      vf = req.vad_filter ∧ wt = req.word_timestamps := by
  unfold runBody at h
  cases hc : env.copyResult with
  | error e => rw [hc] at h; simp at h
  | ok u =>
    rw [hc] at h
    simp only at h
    cases ht : env.transcribeCall (lang_param req.language) req.beam_size
        req.vad_filter req.word_timestamps with
    | error e =>
        rw [ht] at h
        simp at h
        exact h
    | ok y =>
        rw [ht] at h
        simp only at h
        cases hd : y.drain with
        | error e =>
            rw [hd] at h
            simp at h
            exact h
        | ok segs =>
            rw [hd] at h
            simp at h
            exact h

end FasterWhisper

namespace FasterWhisper

/-- A `transcribeStart` event inside `afterModel` comes from the body. -/
theorem afterModel_transcribeStart (env : TranscribeEnv) (req : Request)
    (info : ModelInfo) (pre : List Event) (lp : Option String) (bs : Int)
    (vf wt : Bool)
    (hpre : ∀ lp' bs' vf' wt', Event.transcribeStart lp' bs' vf' wt' ∉ pre)
    (h : Event.transcribeStart lp bs vf wt ∈ (afterModel env req info pre).events) :
    Event.transcribeStart lp bs vf wt ∈ (runBody env req info).1 := by
  rw [afterModel_eq] at h
  cases hu : env.unlinkResult with
  | ok u =>
      rw [hu] at h
      simp only [List.append_assoc, List.mem_append, List.mem_singleton] at h
      rcases h with h | h | h | h
      · exact absurd h (hpre lp bs vf wt)
      · simp at h
      · exact h
      · simp at h
  | error u =>
      rw [hu] at h
      simp only [List.append_assoc, List.mem_append, List.mem_singleton] at h
      rcases h with h | h | h
      · exact absurd h (hpre lp bs vf wt)
      · simp at h
      · exact h

/-- C7: in every run, any `transcribeStart` event carries the auto-detect
marker (`None`) exactly when the request's `language` is the literal
`"auto"`, and the request's language string unchanged otherwise. -/
theorem transcribe_language_normalization (env : TranscribeEnv)
    (req : Request) (info0 : ModelInfo) (lp : Option String) (bs : Int)
    (vf wt : Bool)
    (h : Event.transcribeStart lp bs vf wt ∈
        (transcribe_audio env req info0).events) :
    (lp = none ↔ req.language = "auto") ∧
    (req.language ≠ "auto" → lp = some req.language) := by
  have hlp : lp = lang_param req.language := by
    unfold transcribe_audio at h
    cases h0 : info0.loaded with
    | true =>
        rw [h0] at h
        simp only [if_true] at h
        have := afterModel_transcribeStart env req info0 [] lp bs vf wt
          (by intro lp' bs' vf' wt'; simp) h
        exact (runBody_transcribeStart env req info0 lp bs vf wt this).1
    | false =>
        rw [h0] at h
        simp only [Bool.false_eq_true, if_false] at h
        cases hs : (load_model env.engine "large-v3" "cuda").1.isSuccess with
        | true =>
            rw [hs] at h
            simp only [if_true] at h
            have := afterModel_transcribeStart env req
              (load_model env.engine "large-v3" "cuda").2
              [.loadAttempt "large-v3" "cuda"] lp bs vf wt
              (by intro lp' bs' vf' wt'; simp) h
            exact (runBody_transcribeStart env req
              (load_model env.engine "large-v3" "cuda").2 lp bs vf wt this).1
        | false =>
            rw [hs] at h
            simp at h
    -- h : transcribeStart ∈ [loadAttempt] is absurd
  subst hlp
  unfold lang_param
  by_cases ha : req.language = "auto"
  · rw [if_pos ha]
    exact ⟨⟨fun _ => ha, fun _ => rfl⟩, fun h' => absurd ha h'⟩
  · rw [if_neg ha]
    exact ⟨by simp [ha], fun _ => rfl⟩

/-- `Event.materialize` discriminator. -/
def Event.isMaterialize : Event → Bool
  | .materialize _ => true
  | _ => false

/-- `Event.removeTemp` discriminator. -/
def Event.isRemoveTemp : Event → Bool
  | .removeTemp _ => true
  | _ => false

/-- `a` occurs strictly before `b` in the trace, where `a` is a
materialization and `b` a temp-file removal. -/
def materializedBeforeRemoval (tr : List Event) : Prop :=
  ∃ i j : Fin tr.length, i.val < j.val ∧
    (tr.get i).isMaterialize = true ∧ (tr.get j).isRemoveTemp = true

/-- A 2xx body determines the body's events: copy, engine call,
materialization. -/
theorem runBody_ok_events (env : TranscribeEnv) (req : Request)
    (info : ModelInfo) (resp : TranscribeResponse)
    (h : (runBody env req info).2 = .ok resp) :
    ∃ k, (runBody env req info).1 =
      [.copy, .transcribeStart (lang_param req.language) req.beam_size
         req.vad_filter req.word_timestamps, .materialize k] := by
  unfold runBody at h ⊢
  cases hc : env.copyResult with
  | error e => rw [hc] at h; simp at h
  | ok u =>
    rw [hc] at h
    simp only at h ⊢
    cases ht : env.transcribeCall (lang_param req.language) req.beam_size
        req.vad_filter req.word_timestamps with
    | error e => rw [ht] at h; simp at h
    | ok y =>
        rw [ht] at h
        simp only at h ⊢
        cases hd : y.drain with
        | error e => rw [hd] at h; simp at h
        | ok segs => exact ⟨segs.length, rfl⟩

/-- A 2xx run determines the whole trace up to the load prefix and the
segment count. -/
theorem transcribe_ok_events (env : TranscribeEnv) (req : Request)
    (info0 : ModelInfo) (resp : TranscribeResponse)
    (hout : (transcribe_audio env req info0).outcome = .ok resp) :
    ∃ pre k, (pre = [] ∨ pre = [Event.loadAttempt "large-v3" "cuda"]) ∧
      (transcribe_audio env req info0).events =
        pre ++ [Event.createTemp env.tempName] ++
          [.copy, .transcribeStart (lang_param req.language) req.beam_size
             req.vad_filter req.word_timestamps, .materialize k] ++
          [Event.removeTemp env.tempName] := by
  unfold transcribe_audio at hout ⊢
  cases h0 : info0.loaded with
  | true =>
      rw [h0] at hout
      simp only [if_true] at hout ⊢
      obtain ⟨hbody, hu⟩ := afterModel_ok_inv env req info0 [] resp hout
      obtain ⟨k, hevs⟩ := runBody_ok_events env req info0 resp hbody
      rw [afterModel_eq, hu]
      simp only
      refine ⟨[], k, Or.inl rfl, ?_⟩
      rw [hevs]
  | false =>
      rw [h0] at hout
      simp only [Bool.false_eq_true, if_false] at hout ⊢
      cases hs : (load_model env.engine "large-v3" "cuda").1.isSuccess with
      | true =>
          rw [hs] at hout
          simp only [if_true] at hout ⊢
          obtain ⟨hbody, hu⟩ := afterModel_ok_inv env req
            (load_model env.engine "large-v3" "cuda").2
            [.loadAttempt "large-v3" "cuda"] resp hout
          obtain ⟨k, hevs⟩ := runBody_ok_events env req
            (load_model env.engine "large-v3" "cuda").2 resp hbody
          rw [afterModel_eq, hu]
          simp only
          refine ⟨[.loadAttempt "large-v3" "cuda"], k, Or.inr rfl, ?_⟩
          rw [hevs]
      | false =>
          rw [hs] at hout
          simp at hout

end FasterWhisper

namespace FasterWhisper

/-- C8: in every successful run the lazy segment sequence is fully
materialized (drained by `list(...)`) strictly before the staged temp
file is removed. -/
theorem transcribe_materialize_before_removal (env : TranscribeEnv)
    (req : Request) (info0 : ModelInfo) (resp : TranscribeResponse)
    (hout : (transcribe_audio env req info0).outcome = .ok resp) :
    materializedBeforeRemoval (transcribe_audio env req info0).events := by
  obtain ⟨pre, k, hpre, hev⟩ := transcribe_ok_events env req info0 resp hout
  rcases hpre with h | h <;> subst h <;> rw [hev]
  · exact ⟨⟨3, by simp⟩, ⟨4, by simp⟩, by norm_num, rfl, rfl⟩
  · exact ⟨⟨4, by simp⟩, ⟨5, by simp⟩, by norm_num, rfl, rfl⟩

/-- In a successful run, the response's `segments` list is the per-segment
dictionary image of the engine's materialized segments. -/
theorem transcribe_ok_segments (env : TranscribeEnv) (req : Request)
    (info0 : ModelInfo) (y : TranscribeYield) (segs : List EngineSegment)
    (resp : TranscribeResponse)
    (hcall : env.transcribeCall (lang_param req.language) req.beam_size
        req.vad_filter req.word_timestamps = .ok y)
    (hdrain : y.drain = .ok segs)
    (hout : (transcribe_audio env req info0).outcome = .ok resp) :
    resp.segments = segs.map buildSegmentDict := by
  obtain ⟨info, hbody, -⟩ := transcribe_ok_inv env req info0 resp hout
  have hcopy := runBody_ok_copy env req info resp hbody
  rw [runBody_eq_of_ok env req info y segs hcopy hcall hdrain] at hbody
  simp only [Except.ok.injEq] at hbody
  rw [← hbody]
  exact assemble_fst segs

end FasterWhisper

namespace FasterWhisper

/-- C1 (amended): with `wordTimestamps = false`, a response segment still
carries a `words` key exactly when the engine's yielded segment has a
non-empty words list — the handler's assembly (line 136) never consults
the flag, so it does not strip engine-supplied words. -/
theorem transcribe_words_flag_false_not_filtered (env : TranscribeEnv)
    (req : Request) (info0 : ModelInfo) (y : TranscribeYield)
    (segs : List EngineSegment) (resp : TranscribeResponse)
    (hwt : req.word_timestamps = false)
    (hcall : env.transcribeCall (lang_param req.language) req.beam_size
        req.vad_filter req.word_timestamps = .ok y)
    (hdrain : y.drain = .ok segs)
    (hout : (transcribe_audio env req info0).outcome = .ok resp) :
    resp.segments.length = segs.length ∧
    ∀ i (hi : i < segs.length) (hr : i < resp.segments.length),
      ((resp.segments.get ⟨i, hr⟩).words = none ↔
        ((segs.get ⟨i, hi⟩).words = none ∨ (segs.get ⟨i, hi⟩).words = some [])) := by
  have hsegs := transcribe_ok_segments env req info0 y segs resp hcall hdrain hout
  refine ⟨by rw [hsegs, List.length_map], ?_⟩
  intro i hi hr
  have hget : resp.segments.get ⟨i, hr⟩ = buildSegmentDict (segs.get ⟨i, hi⟩) := by
    rw [List.get_of_eq hsegs, List.get_map]
  rw [hget]
  unfold buildSegmentDict
  rcases hw : (segs.get ⟨i, hi⟩).words with _ | ⟨_ | ⟨w, ws⟩⟩ <;> simp

/-- C9 (amended): with `wordTimestamps = true`, a response segment carries
the engine's ordered word list when that list is non-empty; when the
engine returned an empty list (or none at all), the `words` key is
omitted — the truthiness test at line 136 treats `[]` like `None`. -/
theorem transcribe_words_flag_true_attached (env : TranscribeEnv)
    (req : Request) (info0 : ModelInfo) (y : TranscribeYield)
    (segs : List EngineSegment) (resp : TranscribeResponse)
    (hwt : req.word_timestamps = true)
    (hcall : env.transcribeCall (lang_param req.language) req.beam_size
        req.vad_filter req.word_timestamps = .ok y)
    (hdrain : y.drain = .ok segs)
    (hout : (transcribe_audio env req info0).outcome = .ok resp) :
    resp.segments.length = segs.length ∧
    (∀ i (hi : i < segs.length) (hr : i < resp.segments.length) (w : Word)
        (ws : List Word), (segs.get ⟨i, hi⟩).words = some (w :: ws) →
      (resp.segments.get ⟨i, hr⟩).words =
        some ((w :: ws).map fun word => ⟨word.word, word.start, word.«end»⟩)) ∧
    (∀ i (hi : i < segs.length) (hr : i < resp.segments.length),
      (segs.get ⟨i, hi⟩).words = some [] →
      (resp.segments.get ⟨i, hr⟩).words = none) := by
  have hsegs := transcribe_ok_segments env req info0 y segs resp hcall hdrain hout
  have hget : ∀ i (hi : i < segs.length) (hr : i < resp.segments.length),
      resp.segments.get ⟨i, hr⟩ = buildSegmentDict (segs.get ⟨i, hi⟩) := by
    intro i hi hr
    rw [List.get_of_eq hsegs, List.get_map]
  refine ⟨by rw [hsegs, List.length_map], ?_, ?_⟩
  · intro i hi hr w ws hw
    rw [hget i hi hr]
    unfold buildSegmentDict
    rw [hw]
  · intro i hi hr hw
    rw [hget i hi hr]
    unfold buildSegmentDict
    rw [hw]

end FasterWhisper

namespace FasterWhisper

/-- Number of temp-file creations in a trace. -/
def countCreate (tr : List Event) : Nat :=
  tr.countP fun e => match e with | .createTemp _ => true | _ => false

/-- Number of successful temp-file removals in a trace. -/
def countRemove (tr : List Event) : Nat :=
  tr.countP fun e => match e with | .removeTemp _ => true | _ => false

theorem countCreate_append (l1 l2 : List Event) :
    countCreate (l1 ++ l2) = countCreate l1 + countCreate l2 :=
  List.countP_append _ _ _

theorem countRemove_append (l1 l2 : List Event) :
    countRemove (l1 ++ l2) = countRemove l1 + countRemove l2 :=
  List.countP_append _ _ _

/-- The outcome the `try/except` alone determines, before the `finally`
block runs. -/
def preCleanupOutcome (env : TranscribeEnv) (req : Request)
    (info : ModelInfo) : Outcome :=
  match (runBody env req info).2 with
  | .ok resp => .ok resp
  | .error e => .httpError 500 e

/-- The `try` block itself neither creates nor removes temp files. -/
theorem runBody_no_create_remove (env : TranscribeEnv) (req : Request)
    (info : ModelInfo) :
    countCreate (runBody env req info).1 = 0 ∧
    countRemove (runBody env req info).1 = 0 := by
  unfold runBody
  cases env.copyResult with
  | error e => exact ⟨rfl, rfl⟩
  | ok u =>
    simp only
    cases env.transcribeCall (lang_param req.language) req.beam_size
        req.vad_filter req.word_timestamps with
    | error e => exact ⟨rfl, rfl⟩
    | ok y =>
      simp only
      cases y.drain with
      | error e => exact ⟨rfl, rfl⟩
      | ok segs => exact ⟨rfl, rfl⟩

/-- Cleanup behavior of the `finally` block around one staged file. -/
theorem afterModel_cleanup (env : TranscribeEnv) (req : Request)
    (info : ModelInfo) (pre : List Event)
    (hc0 : countCreate pre = 0) (hr0 : countRemove pre = 0) :
    countCreate (afterModel env req info pre).events = 1 ∧
    (env.unlinkResult = .ok () →
      countRemove (afterModel env req info pre).events = 1 ∧
      (afterModel env req info pre).outcome = preCleanupOutcome env req info) ∧
    (∀ u, env.unlinkResult = .error u →
      countRemove (afterModel env req info pre).events = 0 ∧
      (afterModel env req info pre).outcome = .raised u) := by
  obtain ⟨hb1, hb2⟩ := runBody_no_create_remove env req info
  rw [afterModel_eq]
  cases hu : env.unlinkResult with
  | ok u =>
    cases u
    simp only
    refine ⟨?_, fun _ => ⟨?_, rfl⟩, fun u' h' => Except.noConfusion h'⟩
    · rw [countCreate_append, countCreate_append, countCreate_append, hc0, hb1]
      rfl
    · rw [countRemove_append, countRemove_append, countRemove_append, hr0, hb2]
      rfl
  | error u =>
    simp only
    refine ⟨?_, fun h' => Except.noConfusion h', fun u' h' => ?_⟩
    · rw [countCreate_append, countCreate_append, hc0, hb1]
      rfl
    · cases h'
      refine ⟨?_, rfl⟩
      rw [countRemove_append, countRemove_append, hr0, hb2]
      rfl

/-- C4 (amended): every request that reaches staging creates exactly one
temp file, and the `finally` runs exactly one cleanup on every exit path.
When `os.unlink` succeeds, the file is removed exactly once and the
try/except outcome passes through untouched; when `os.unlink` itself
raises, no removal happens and — the `finally` being unguarded — the
unlink error replaces the original outcome. -/
theorem transcribe_cleanup_policy (env : TranscribeEnv) (req : Request)
    (info0 : ModelInfo)
    (hstage : info0.loaded = true ∨
      (load_model env.engine "large-v3" "cuda").1.isSuccess = true) :
    countCreate (transcribe_audio env req info0).events = 1 ∧
    (env.unlinkResult = .ok () →
      countRemove (transcribe_audio env req info0).events = 1 ∧
      ∃ info : ModelInfo,
        (info = info0 ∨ info = (load_model env.engine "large-v3" "cuda").2) ∧
        (transcribe_audio env req info0).outcome =
          preCleanupOutcome env req info) ∧
    (∀ u, env.unlinkResult = .error u →
      countRemove (transcribe_audio env req info0).events = 0 ∧
      (transcribe_audio env req info0).outcome = .raised u) := by
  unfold transcribe_audio
  cases h0 : info0.loaded with
  | true =>
    simp only [if_true]
    obtain ⟨h1, h2, h3⟩ := afterModel_cleanup env req info0 [] rfl rfl
    exact ⟨h1, fun hok => ⟨(h2 hok).1, info0, Or.inl rfl, (h2 hok).2⟩, h3⟩
  | false =>
    simp only [Bool.false_eq_true, if_false]
    rcases hstage with h | hs
    · rw [h0] at h
      cases h
    · rw [hs]
      simp only [if_true]
      obtain ⟨h1, h2, h3⟩ := afterModel_cleanup env req
        (load_model env.engine "large-v3" "cuda").2
        [.loadAttempt "large-v3" "cuda"] rfl rfl
      exact ⟨h1, fun hok => ⟨(h2 hok).1,
        (load_model env.engine "large-v3" "cuda").2, Or.inr rfl, (h2 hok).2⟩, h3⟩

end FasterWhisper

namespace FasterWhisper

/-- An engine whose constructor always succeeds. -/
def okEngine : EngineBehavior := ⟨fun _ _ _ => .ok ()⟩

/-- Loaded model state after a default GPU load. -/
def loadedInfo : ModelInfo := ⟨"large-v3", "cuda", true⟩

/-- Initial not-loaded model state. -/
def notLoadedInfo : ModelInfo := ⟨"", "", false⟩

/-- A default-form request (`language="zh"`, `beam_size=5`,
`vad_filter=True`, `word_timestamps=True`). -/
def reqZh : Request := ⟨"audio.mp3", "zh", 5, true, true⟩

/-- The same request with `word_timestamps=False`. -/
def reqNoWT : Request := ⟨"audio.mp3", "zh", 5, true, false⟩

/-- Two engine segments without word timestamps. -/
def segsTwo : List EngineSegment :=
  [⟨0, 1, " Hello ", none⟩, ⟨1, 2, "world", none⟩]

/-- Engine yield for `segsTwo`. -/
def yTwo : TranscribeYield := ⟨⟨"en", 9/10⟩, .ok segsTwo⟩

/-- Fault-free environment whose engine yields `segsTwo`. -/
def envTwo : TranscribeEnv :=
  ⟨okEngine, "/tmp/stage1.wav", .ok (), fun _ _ _ _ => .ok yTwo, 2, .ok ()⟩

/-- The response produced at `envTwo` / `reqZh` / `loadedInfo`. -/
def respTwo : TranscribeResponse :=
  ⟨true, "en", round2 (9/10), round2 2, "large-v3", "cuda",
   pyStrip (assemble segsTwo).2, (assemble segsTwo).1⟩

/-- A segment carrying a non-empty engine words list. -/
def segWords : EngineSegment := ⟨0, 1, "hi", some [⟨"hi", 0, 1⟩]⟩

/-- A segment whose engine words list is explicitly empty. -/
def segEmptyWords : EngineSegment := ⟨0, 1, "hey", some []⟩

/-- Engine yield for `[segWords]`. -/
def yWords : TranscribeYield := ⟨⟨"en", 9/10⟩, .ok [segWords]⟩

/-- Fault-free environment whose engine yields `[segWords]`. -/
def envWords : TranscribeEnv :=
  ⟨okEngine, "/tmp/stage2.wav", .ok (), fun _ _ _ _ => .ok yWords, 2, .ok ()⟩

/-- The response produced at `envWords` / `loadedInfo`. -/
def respWords : TranscribeResponse :=
  ⟨true, "en", round2 (9/10), round2 2, "large-v3", "cuda",
   pyStrip (assemble [segWords]).2, (assemble [segWords]).1⟩

/-- Engine yield for `[segWords, segEmptyWords]`. -/
def yMixed : TranscribeYield := ⟨⟨"en", 9/10⟩, .ok [segWords, segEmptyWords]⟩

/-- Fault-free environment whose engine yields both words shapes. -/
def envMixed : TranscribeEnv :=
  ⟨okEngine, "/tmp/stage3.wav", .ok (), fun _ _ _ _ => .ok yMixed, 2, .ok ()⟩

/-- The response produced at `envMixed` / `reqZh` / `loadedInfo`. -/
def respMixed : TranscribeResponse :=
  ⟨true, "en", round2 (9/10), round2 2, "large-v3", "cuda",
   pyStrip (assemble [segWords, segEmptyWords]).2,
   (assemble [segWords, segEmptyWords]).1⟩

/-- Environment whose engine constructor always fails (both the GPU
attempt and the CPU fallback of a default load fail). -/
def envNoLoad : TranscribeEnv :=
  ⟨⟨fun _ _ _ => .error "no backend"⟩, "/tmp/stage4.wav", .ok (),
   fun _ _ _ _ => .error "unreachable", 2, .ok ()⟩

/-- Environment where the engine call raises and `os.unlink` raises in
the `finally`. -/
def envCleanupMask : TranscribeEnv :=
  ⟨okEngine, "/tmp/stage5.wav", .ok (),
   fun _ _ _ _ => .error "decode failed", 2, .error "unlink: permission denied"⟩

/-- The `words` entries of a 2xx outcome's segments (`[]` otherwise). -/
def outcomeSegmentsWords : Outcome → List (Option (List Word))
  | .ok r => r.segments.map fun sd => sd.words
  | _ => []

/-- C1 counterexample: with `wordTimestamps = false` but the engine
yielding a segment with a non-empty words list, the response segment DOES
carry a `words` field — so "no segment in the response carries a `words`
field" is false at this input. -/
theorem transcribe_words_flag_false_counterexample :
    reqNoWT.word_timestamps = false ∧
    outcomeSegmentsWords
        (transcribe_audio envWords reqNoWT loadedInfo).outcome =
      [some [⟨"hi", 0, 1⟩]] :=
  ⟨rfl, by rfl⟩

/-- C9 counterexample: with `wordTimestamps = true` and the engine
returning an explicitly empty words list for its second segment, the
response omits the `words` key (`none`) instead of emitting the empty
list the claim requires. -/
theorem transcribe_words_flag_true_counterexample :
    reqZh.word_timestamps = true ∧
    segEmptyWords.words = some [] ∧
    outcomeSegmentsWords
        (transcribe_audio envMixed reqZh loadedInfo).outcome =
      [some [⟨"hi", 0, 1⟩], none] :=
  ⟨rfl, rfl, by rfl⟩

/-- C4 counterexample: the engine raises "decode failed" and `os.unlink`
raises in the `finally`; the staged file is never removed although it
exists, and the outcome is the unlink error rather than the original
`HTTPException(500, "decode failed")` — cleanup masks the original
error, contradicting the claim. -/
theorem transcribe_cleanup_policy_counterexample :
    (transcribe_audio envCleanupMask reqZh loadedInfo).outcome =
        .raised "unlink: permission denied" ∧
    countRemove (transcribe_audio envCleanupMask reqZh loadedInfo).events = 0 ∧
    (transcribe_audio envCleanupMask reqZh loadedInfo).outcome ≠
        .httpError 500 "decode failed" :=
  ⟨by rfl, by rfl, fun h => Outcome.noConfusion h⟩

/-- Witness for `transcribe_fullText_is_spec_join` at `envTwo`. -/
theorem transcribe_fullText_is_spec_join_witness :
    respTwo.text = specFullText (segsTwo.map fun s => s.text) ∧
      (segsTwo = [] → respTwo.text = "") :=
  transcribe_fullText_is_spec_join envTwo reqZh loadedInfo yTwo segsTwo respTwo
    (by rfl) (by rfl) (by rfl)

/-- Witness for `transcribe_model_unavailable` at `envNoLoad`. -/
theorem transcribe_model_unavailable_witness :
    (transcribe_audio envNoLoad reqZh notLoadedInfo).events =
        [.loadAttempt "large-v3" "cuda"] ∧
    (transcribe_audio envNoLoad reqZh notLoadedInfo).outcome =
        .httpError 500 "Model loading failed" ∧
    (∀ n, Event.createTemp n ∉
        (transcribe_audio envNoLoad reqZh notLoadedInfo).events) ∧
    Event.copy ∉ (transcribe_audio envNoLoad reqZh notLoadedInfo).events :=
  transcribe_model_unavailable envNoLoad reqZh notLoadedInfo rfl (by rfl)

/-- Witness for `transcribe_language_normalization` at `envTwo`. -/
theorem transcribe_language_normalization_witness :
    ((some "zh" : Option String) = none ↔ reqZh.language = "auto") ∧
    (reqZh.language ≠ "auto" →
      (some "zh" : Option String) = some reqZh.language) :=
  transcribe_language_normalization envTwo reqZh loadedInfo (some "zh") 5
    true true (by decide)

/-- Witness for `transcribe_materialize_before_removal` at `envTwo`. -/
theorem transcribe_materialize_before_removal_witness :
    materializedBeforeRemoval (transcribe_audio envTwo reqZh loadedInfo).events :=
  transcribe_materialize_before_removal envTwo reqZh loadedInfo respTwo
    (by rfl)

/-- Witness for `transcribe_words_flag_false_not_filtered` at `envWords`. -/
theorem transcribe_words_flag_false_not_filtered_witness :
    respWords.segments.length = [segWords].length ∧
    ∀ i (hi : i < [segWords].length) (hr : i < respWords.segments.length),
      ((respWords.segments.get ⟨i, hr⟩).words = none ↔
        (([segWords].get ⟨i, hi⟩).words = none ∨
          ([segWords].get ⟨i, hi⟩).words = some [])) :=
  transcribe_words_flag_false_not_filtered envWords reqNoWT loadedInfo yWords
    [segWords] respWords rfl (by rfl) (by rfl) (by rfl)

/-- Witness for `transcribe_words_flag_true_attached` at `envMixed`. -/
theorem transcribe_words_flag_true_attached_witness :
    respMixed.segments.length = [segWords, segEmptyWords].length ∧
    (∀ i (hi : i < [segWords, segEmptyWords].length)
        (hr : i < respMixed.segments.length) (w : Word) (ws : List Word),
        ([segWords, segEmptyWords].get ⟨i, hi⟩).words = some (w :: ws) →
      (respMixed.segments.get ⟨i, hr⟩).words =
        some ((w :: ws).map fun word => ⟨word.word, word.start, word.«end»⟩)) ∧
    (∀ i (hi : i < [segWords, segEmptyWords].length)
        (hr : i < respMixed.segments.length),
        ([segWords, segEmptyWords].get ⟨i, hi⟩).words = some [] →
      (respMixed.segments.get ⟨i, hr⟩).words = none) :=
  transcribe_words_flag_true_attached envMixed reqZh loadedInfo yMixed
    [segWords, segEmptyWords] respMixed rfl (by rfl) (by rfl) (by rfl)

/-- Witness for `transcribe_cleanup_policy` at `envTwo`. -/
theorem transcribe_cleanup_policy_witness :
    countCreate (transcribe_audio envTwo reqZh loadedInfo).events = 1 ∧
    (envTwo.unlinkResult = .ok () →
      countRemove (transcribe_audio envTwo reqZh loadedInfo).events = 1 ∧
      ∃ info : ModelInfo,
        (info = loadedInfo ∨
          info = (load_model envTwo.engine "large-v3" "cuda").2) ∧
        (transcribe_audio envTwo reqZh loadedInfo).outcome =
          preCleanupOutcome envTwo reqZh info) ∧
    (∀ u, envTwo.unlinkResult = .error u →
      countRemove (transcribe_audio envTwo reqZh loadedInfo).events = 0 ∧
      (transcribe_audio envTwo reqZh loadedInfo).outcome = .raised u) :=
  transcribe_cleanup_policy envTwo reqZh loadedInfo (Or.inl rfl)

end FasterWhisper
